import Mathlib

/-!
Verification development for the OPNsense-config-faker repository.

Strings from the Python source are modelled as `List Char`; Python `int`
values are modelled as `Int`.  Pure fragments of the source (the character
escaping, the fragment renderers, the CSV writer and reader, the record
generator, and the XML splicer) are embedded as executable Lean functions;
file handles are abstracted away so each renderer returns the text it would
write, and randomness (the shared Faker/`random` state) is abstracted as
explicit streams of draws indexed by `Nat`.  Loops whose termination depends
on the random stream (the rejection-sampling loops of the record generator)
take an explicit fuel argument and return `Option`, with `none` standing for
a run that has not terminated within the fuel bound.
-/

/-! ## Python string primitives -/

/-- Decimal digits of a natural number, fuel-indexed so that the recursion is
structural; models Python `str` applied to a non-negative `int`. -/
def natStrAux : Nat → Nat → List Char
  | 0, _ => []
  | fuel + 1, n =>
    if n < 10 then [Nat.digitChar n]
    else natStrAux fuel (n / 10) ++ [Nat.digitChar (n % 10)]

/-- Decimal representation of a natural number (`str` in Python). -/
def natStr (n : Nat) : List Char :=
  natStrAux (n + 1) n

/-- Decimal representation of an integer, models Python `str` on `int`. -/
def intStr (i : Int) : List Char :=
  if i < 0 then '-' :: natStr i.natAbs else natStr i.toNat

/-- Accumulating decimal reader: consumes decimal digits, `none` on any
non-digit character.  Helper for the model of Python `int(...)`. -/
def parseNatAux : List Char → Nat → Option Nat
  | [], acc => some acc
  | c :: rest, acc =>
    if '0' ≤ c ∧ c ≤ '9' then parseNatAux rest (acc * 10 + (c.toNat - 48))
    else none

/-- Reads a non-empty all-digit string as a natural number. -/
def parseNat : List Char → Option Nat
  | [] => none
  | c :: rest => parseNatAux (c :: rest) 0

/-- Models Python `int(s)` on an already-stripped string: optional sign
followed by at least one decimal digit.  (Underscore digit grouping, which
Python also accepts, is not modelled; the repository never writes it.) -/
def pyInt : List Char → Option Int
  | [] => none
  | c :: rest =>
    if c = '-' then (parseNat rest).map (fun n => -(n : Int))
    else if c = '+' then (parseNat rest).map (fun n => (n : Int))
    else (parseNat (c :: rest)).map (fun n => (n : Int))

/-- ASCII whitespace recognised by Python `str.strip` (the Unicode-only
whitespace code points are not modelled; no caller produces them). -/
def isPySpace (c : Char) : Bool :=
  c == ' ' || c == '\t' || c == '\n' || c == '\r' || c == '\x0b' || c == '\x0c'

/-- Models Python `str.strip()`: removes leading and trailing whitespace. -/
def pyStrip (s : List Char) : List Char :=
  ((s.dropWhile isPySpace).reverse.dropWhile isPySpace).reverse

/-- Does `pat` occur at the head of `l`?  Helper for substring search. -/
def headMatches (pat l : List Char) : Bool :=
  l.take pat.length == pat

/-- Substring occurrence test on character lists. -/
def containsSeq (pat : List Char) : List Char → Bool
  | [] => pat == []
  | c :: rest => headMatches pat (c :: rest) || containsSeq pat rest

/-- Fuel-indexed body of `pyReplace`; the fuel is an upper bound on the
number of characters consumed, so `pyReplace` passes the input length. -/
def pyReplaceAux (pat rep : List Char) : Nat → List Char → List Char
  | _, [] => []
  | 0, l => l
  | fuel + 1, c :: rest =>
    if pat ≠ [] ∧ headMatches pat (c :: rest) then
      rep ++ pyReplaceAux pat rep fuel ((c :: rest).drop pat.length)
    else
      c :: pyReplaceAux pat rep fuel rest

/-- Models Python `str.replace(pat, rep)` for a non-empty pattern: leftmost,
non-overlapping replacement of every occurrence. -/
def pyReplace (s pat rep : List Char) : List Char :=
  pyReplaceAux pat rep s.length s

/-! ## Character escaping (`escape_xml_string`, src/main.py lines 84-98 and
src/generate_csv.py lines 68-82) -/

/-- Models Python `str.replace` for a single-character pattern `k`, the only
shape `xml.sax.saxutils.escape` uses: every occurrence of the character `k`
is replaced by the string `v`. -/
def replaceChar (k : Char) (v : List Char) (s : List Char) : List Char :=
  (s.map (fun c => if c = k then v else [c])).flatten

/-- The replacement table passed to `xml.sax.saxutils.escape` by
`escape_xml_string`, in Python dict insertion order, preceded by the three
replacements `escape` itself always performs first (`&`, then `>`, then `<`,
in the order of the CPython implementation of `saxutils.escape`). -/
def escapeTable : List (Char × List Char) :=
  [('&', "&amp;".data), ('>', "&gt;".data), ('<', "&lt;".data),
   ('ä', "ae".data), ('ö', "oe".data), ('ü', "ue".data), ('ß', "ss".data),
   ('Ä', "AE".data), ('Ö', "OE".data), ('Ü', "UE".data),
   (' ', "".data), ('-', "_".data), ('/', "_".data)]

/-- Model of `escape_xml_string` from src/main.py lines 84-98 (identical in
src/generate_csv.py lines 68-82): `xml.sax.saxutils.escape` with the
umlaut/space/hyphen/slash entity table, i.e. the sequential application of
the single-character replacements of `escapeTable`. -/
def escape_xml_string (s : List Char) : List Char :=
  escapeTable.foldl (fun acc kv => replaceChar kv.1 kv.2 acc) s

/-- The per-character action that the sequential replacements of
`escape_xml_string` amount to (proved below in `escape_eq_join_map`). -/
def escapeChar (c : Char) : List Char :=
  if c = '&' then "&amp;".data
  else if c = '>' then "&gt;".data
  else if c = '<' then "&lt;".data
  else if c = 'ä' then "ae".data
  else if c = 'ö' then "oe".data
  else if c = 'ü' then "ue".data
  else if c = 'ß' then "ss".data
  else if c = 'Ä' then "AE".data
  else if c = 'Ö' then "OE".data
  else if c = 'Ü' then "UE".data
  else if c = ' ' then []
  else if c = '-' then ['_']
  else if c = '/' then ['_']
  else [c]

/-- Is `c` one of the thirteen characters `escape_xml_string` rewrites? -/
def mappedChar (c : Char) : Bool :=
  c == '&' || c == '>' || c == '<' ||
  c == 'ä' || c == 'ö' || c == 'ü' || c == 'ß' ||
  c == 'Ä' || c == 'Ö' || c == 'Ü' ||
  c == ' ' || c == '-' || c == '/'

/-- Is `c` one of the characters the specification says may not survive
escaping: space, hyphen, slash, umlauts, sharp s? -/
def forbiddenChar (c : Char) : Bool :=
  c == ' ' || c == '-' || c == '/' ||
  c == 'ä' || c == 'ö' || c == 'ü' || c == 'ß' ||
  c == 'Ä' || c == 'Ö' || c == 'Ü'

theorem replaceChar_append (k : Char) (v a b : List Char) :
    replaceChar k v (a ++ b) = replaceChar k v a ++ replaceChar k v b := by
  simp [replaceChar]

theorem escape_xml_string_append (a b : List Char) :
    escape_xml_string (a ++ b) = escape_xml_string a ++ escape_xml_string b := by
  simp only [escape_xml_string, escapeTable, List.foldl_cons, List.foldl_nil,
    replaceChar_append]

theorem escape_xml_string_cons (c : Char) (s : List Char) :
    escape_xml_string (c :: s) = escape_xml_string [c] ++ escape_xml_string s := by
  have h : c :: s = [c] ++ s := rfl
  rw [h, escape_xml_string_append]

theorem escape_xml_string_single (c : Char) :
    escape_xml_string [c] = escapeChar c := by
  by_cases h1 : c = '&'; · subst h1; decide
  by_cases h2 : c = '>'; · subst h2; decide
  by_cases h3 : c = '<'; · subst h3; decide
  by_cases h4 : c = 'ä'; · subst h4; decide
  by_cases h5 : c = 'ö'; · subst h5; decide
  by_cases h6 : c = 'ü'; · subst h6; decide
  by_cases h7 : c = 'ß'; · subst h7; decide
  by_cases h8 : c = 'Ä'; · subst h8; decide
  by_cases h9 : c = 'Ö'; · subst h9; decide
  by_cases h10 : c = 'Ü'; · subst h10; decide
  by_cases h11 : c = ' '; · subst h11; decide
  by_cases h12 : c = '-'; · subst h12; decide
  by_cases h13 : c = '/'; · subst h13; decide
  simp [escape_xml_string, escapeTable, replaceChar, escapeChar,
    h1, h2, h3, h4, h5, h6, h7, h8, h9, h10, h11, h12, h13]

theorem escape_eq_join_map (s : List Char) :
    escape_xml_string s = (s.map escapeChar).flatten := by
  induction s with
  | nil => rfl
  | cons c rest ih =>
    rw [escape_xml_string_cons, escape_xml_string_single, ih]
    simp

theorem escapeChar_of_not_mapped {c : Char} (h : mappedChar c = false) :
    escapeChar c = [c] := by
  simp only [mappedChar, Bool.or_eq_false_iff, beq_eq_false_iff_ne, ne_eq] at h
  obtain ⟨⟨⟨⟨⟨⟨⟨⟨⟨⟨⟨⟨h1, h2⟩, h3⟩, h4⟩, h5⟩, h6⟩, h7⟩, h8⟩, h9⟩, h10⟩, h11⟩, h12⟩, h13⟩ := h
  simp [escapeChar, h1, h2, h3, h4, h5, h6, h7, h8, h9, h10, h11, h12, h13]

theorem escape_of_no_mapped {s : List Char}
    (h : ∀ c ∈ s, mappedChar c = false) : escape_xml_string s = s := by
  rw [escape_eq_join_map]
  induction s with
  | nil => rfl
  | cons c rest ih =>
    simp only [List.map_cons, List.flatten_cons]
    rw [escapeChar_of_not_mapped (h c (List.mem_cons_self c rest))]
    simp only [List.singleton_append, List.cons.injEq, true_and]
    exact ih (fun d hd => h d (List.mem_cons_of_mem c hd))

/-! ## Data model (src/main.py lines 66-73) -/

/-- The `VLANConfig` dataclass of src/main.py: one generated record. -/
structure VLANConfig where
  vlan_id : Int
  ip_network : List Char
  description : List Char
  wan_assignment : Int
deriving DecidableEq

/-- The `options` dictionary consumed by the renderers (src/main.py lines
628-635 and 919-925).  Every caller in the repository supplies all five
keys, so the model makes them plain fields; the `dict.get` defaults of the
source are recorded at each use site. -/
structure ConfigOptions where
  opt_counter : Int
  firewallNr : Int
  wan1 : List Char
  wan2 : List Char
  wan3 : List Char
deriving DecidableEq

/-! ## Interface fragment renderer (`generate_interface_xml`, src/main.py
lines 279-308) -/

/-- The text written for one record by `generate_interface_xml`. -/
def interfaceBlock (cfg : VLANConfig) (optCounter ipSuffix : Int) : List Char :=
  "<opt".data ++ intStr optCounter ++ ">\n".data
  ++ "  <if>vlan0".data ++ intStr cfg.vlan_id ++ "</if>\n".data
  ++ "  <descr>V".data ++ intStr cfg.vlan_id ++ "_".data
    ++ escape_xml_string cfg.description ++ "</descr>\n".data
  ++ "  <enable>1</enable>\n".data
  ++ "  <spoofmac/>\n".data
  ++ "  <ipaddr>".data ++ pyReplace cfg.ip_network ".x".data ('.' :: intStr ipSuffix)
    ++ "</ipaddr>\n".data
  ++ "  <subnet>24</subnet>\n".data
  ++ "</opt".data ++ intStr optCounter ++ ">\n".data

/-- The per-record loop of `generate_interface_xml`, threading the running
`opt_counter`. -/
def interfaceBlocks : List VLANConfig → Int → Int → List Char
  | [], _, _ => []
  | cfg :: rest, optC, ipSuffix =>
    interfaceBlock cfg optC ipSuffix ++ interfaceBlocks rest (optC + 1) ipSuffix

/-- Model of `generate_interface_xml` (src/main.py lines 279-308): returns
the text the function writes to its output file.  `ip_suffix` is
`250 + firewall_number` as in line 292. -/
def generate_interface_xml (configs : List VLANConfig) (opts : ConfigOptions) : List Char :=
  interfaceBlocks configs opts.opt_counter (250 + opts.firewallNr)

/-! ## NAT fragment renderer (`generate_nat_xml`, src/main.py lines 397-456) -/

/-- The WAN target selection of src/main.py lines 419-425: `wan_ip` starts
as the empty string and the if/elif chain only assigns it for the three
known WAN ids, so any other `wan_assignment` leaves it empty. -/
def wanTarget (cfg : VLANConfig) (opts : ConfigOptions) : List Char :=
  if cfg.wan_assignment = 1 then opts.wan1
  else if cfg.wan_assignment = 2 then opts.wan2
  else if cfg.wan_assignment = 3 then opts.wan3
  else []

/-- The text `generate_nat_xml` writes for one record before the
`<target>` line (src/main.py lines 427-446). -/
def natRulePre (cfg : VLANConfig) (optCounter : Int) (ts : List Char) : List Char :=
  "<rule>\n".data
  ++ "  <source>\n".data
  ++ "    <network>opt".data ++ intStr optCounter ++ "</network>\n".data
  ++ "  </source>\n".data
  ++ "  <destination>\n    <any>1</any>\n  </destination>\n".data
  ++ "  <descr>".data ++ cfg.description ++ "</descr>\n".data
  ++ "  <category/>\n  <interface>wan</interface>\n  <tag/>\n  <tagged/>\n".data
  ++ "  <poolopts/>\n  <poolopts_sourcehashkey/>\n  <ipprotocol>inet</ipprotocol>\n".data
  ++ "  <created>\n    <username>root@10.1.1.1</username>\n    <time>".data ++ ts
    ++ "</time>\n    <description>OPNsense Config Faker generated</description>\n  </created>\n".data

/-- The text `generate_nat_xml` writes for one record after the `<target>`
line (src/main.py lines 448-454). -/
def natRulePost (ts : List Char) : List Char :=
  "  <sourceport/>\n".data
  ++ "  <updated>\n    <username>root@10.1.1.1</username>\n    <time>".data ++ ts
    ++ "</time>\n    <description>OPNsense Config Faker generated</description>\n  </updated>\n".data
  ++ "</rule>\n".data

/-- The text written for one record by `generate_nat_xml` (src/main.py
lines 427-454); `ts` is the wall-clock timestamp text
(`f"{time.time():.4f}"`), abstracted as an input because the model has no
clock. -/
def natRuleBlock (cfg : VLANConfig) (optCounter : Int) (opts : ConfigOptions)
    (ts : List Char) : List Char :=
  natRulePre cfg optCounter ts
  ++ "  <target>".data ++ wanTarget cfg opts ++ "</target>\n".data
  ++ natRulePost ts

/-- The per-record rule texts of `generate_nat_xml`, in order; `i` indexes
the per-record `time.time()` calls into the abstract timestamp stream. -/
def natRuleBlocks : List VLANConfig → Int → ConfigOptions → (Nat → List Char) → Nat → List (List Char)
  | [], _, _, _, _ => []
  | cfg :: rest, optC, opts, ts, i =>
    natRuleBlock cfg optC opts (ts i) :: natRuleBlocks rest (optC + 1) opts ts (i + 1)

/-- Model of `generate_nat_xml` (src/main.py lines 397-456): the function
first writes `<mode>advanced</mode>` (lines 410-413) and then one
`<rule>` block per record.  The returned list is the full file text. -/
def generate_nat_xml (configs : List VLANConfig) (opts : ConfigOptions)
    (ts : Nat → List Char) : List Char :=
  "<mode>advanced</mode>\n".data
  ++ (natRuleBlocks configs opts.opt_counter opts ts 0).flatten

/-! ## Lemmas about the escape map -/

theorem escapeChar_no_forbidden (c : Char) :
    (escapeChar c).all (fun d => !forbiddenChar d) = true := by
  by_cases h1 : c = '&'; · subst h1; decide
  by_cases h2 : c = '>'; · subst h2; decide
  by_cases h3 : c = '<'; · subst h3; decide
  by_cases h4 : c = 'ä'; · subst h4; decide
  by_cases h5 : c = 'ö'; · subst h5; decide
  by_cases h6 : c = 'ü'; · subst h6; decide
  by_cases h7 : c = 'ß'; · subst h7; decide
  by_cases h8 : c = 'Ä'; · subst h8; decide
  by_cases h9 : c = 'Ö'; · subst h9; decide
  by_cases h10 : c = 'Ü'; · subst h10; decide
  by_cases h11 : c = ' '; · subst h11; decide
  by_cases h12 : c = '-'; · subst h12; decide
  by_cases h13 : c = '/'; · subst h13; decide
  have hm : mappedChar c = false := by
    simp [mappedChar, h1, h2, h3, h4, h5, h6, h7, h8, h9, h10, h11, h12, h13]
  rw [escapeChar_of_not_mapped hm]
  simp [forbiddenChar, h4, h5, h6, h7, h8, h9, h10, h11, h12, h13]

theorem escapeChar_no_mapped {c : Char}
    (h1 : c ≠ '&') (h2 : c ≠ '<') (h3 : c ≠ '>') :
    (escapeChar c).all (fun d => !mappedChar d) = true := by
  by_cases h4 : c = 'ä'; · subst h4; decide
  by_cases h5 : c = 'ö'; · subst h5; decide
  by_cases h6 : c = 'ü'; · subst h6; decide
  by_cases h7 : c = 'ß'; · subst h7; decide
  by_cases h8 : c = 'Ä'; · subst h8; decide
  by_cases h9 : c = 'Ö'; · subst h9; decide
  by_cases h10 : c = 'Ü'; · subst h10; decide
  by_cases h11 : c = ' '; · subst h11; decide
  by_cases h12 : c = '-'; · subst h12; decide
  by_cases h13 : c = '/'; · subst h13; decide
  have hm : mappedChar c = false := by
    simp [mappedChar, h1, h2, h3, h4, h5, h6, h7, h8, h9, h10, h11, h12, h13]
  rw [escapeChar_of_not_mapped hm]
  simp [hm]

theorem all_flatten_map {p : Char → Bool} {f : Char → List Char} {s : List Char}
    (h : ∀ c ∈ s, (f c).all p = true) : ((s.map f).flatten).all p = true := by
  induction s with
  | nil => rfl
  | cons c rest ih =>
    simp only [List.map_cons, List.flatten_cons, List.all_append]
    exact Bool.and_eq_true_iff.mpr
      ⟨h c (List.mem_cons_self c rest), ih (fun d hd => h d (List.mem_cons_of_mem c hd))⟩

theorem escape_mem_of_mem {c : Char} {s : List Char}
    (h : c ∈ escape_xml_string s) : ∃ d ∈ s, c ∈ escapeChar d := by
  rw [escape_eq_join_map] at h
  rcases List.mem_flatten.mp h with ⟨l, hl, hc⟩
  rcases List.mem_map.mp hl with ⟨d, hd, rfl⟩
  exact ⟨d, hd, hc⟩

/-- C5 — for every input string, the escaped output contains no raw space,
hyphen, slash, umlaut or sharp-s character, and the transform is the
character-by-character total map `escapeChar` (every input character is
either rewritten by the table or passed through unchanged). -/
theorem escape_totality_and_no_forbidden (s : List Char) :
    (escape_xml_string s).all (fun c => !forbiddenChar c) = true ∧
    escape_xml_string s = (s.map escapeChar).flatten := by
  refine ⟨?_, escape_eq_join_map s⟩
  rw [escape_eq_join_map]
  exact all_flatten_map (fun c _ => escapeChar_no_forbidden c)

/-- C9 — on top of the documented table, `escape_xml_string` rewrites the
XML metacharacters: every occurrence of `&` becomes `&amp;`, of `<`
becomes `&lt;`, and of `>` becomes `&gt;`, because the function is built
on `xml.sax.saxutils.escape`. -/
theorem escape_xml_metacharacters (s1 s2 : List Char) :
    escape_xml_string (s1 ++ '&' :: s2)
      = escape_xml_string s1 ++ "&amp;".data ++ escape_xml_string s2 ∧
    escape_xml_string (s1 ++ '<' :: s2)
      = escape_xml_string s1 ++ "&lt;".data ++ escape_xml_string s2 ∧
    escape_xml_string (s1 ++ '>' :: s2)
      = escape_xml_string s1 ++ "&gt;".data ++ escape_xml_string s2 := by
  refine ⟨?_, ?_, ?_⟩ <;>
    rw [escape_xml_string_append, escape_xml_string_cons, escape_xml_string_single] <;>
    simp [escapeChar]

/-- C2 counterexample — escaping is not idempotent on already-escaped
output: the escaped form of `"&"` is `"&amp;"`, and re-escaping that
yields `"&amp;amp;"`, a different string. -/
theorem escape_not_idempotent_on_amp :
    escape_xml_string (escape_xml_string "&".data) ≠ escape_xml_string "&".data := by
  decide

/-- C2 (amended) — `escape_xml_string` returns unchanged every string that
contains none of its thirteen rewritten characters, and re-escaping an
escaped output returns that output unchanged whenever the original input
contained no `&`, `<` or `>`; escaped outputs of inputs containing those
metacharacters contain a fresh `&` and are changed by re-escaping. -/
theorem escape_idempotent_on_clean :
    (∀ s : List Char, (∀ c ∈ s, mappedChar c = false) → escape_xml_string s = s) ∧
    (∀ s : List Char, (∀ c ∈ s, c ≠ '&' ∧ c ≠ '<' ∧ c ≠ '>') →
      escape_xml_string (escape_xml_string s) = escape_xml_string s) := by
  refine ⟨fun s h => escape_of_no_mapped h, fun s h => ?_⟩
  apply escape_of_no_mapped
  intro c hc
  rcases escape_mem_of_mem hc with ⟨d, hd, hcd⟩
  rcases h d hd with ⟨hd1, hd2, hd3⟩
  have := escapeChar_no_mapped hd1 hd2 hd3
  rw [List.all_eq_true] at this
  simpa using this c hcd

/-- C2 witness — both parts of the amended idempotence theorem at concrete
inputs: `"AB.x"` has no rewritten characters and is a fixed point, and the
escaped form of `"a-b äß"` (which contains rewritten characters but no XML
metacharacter) is a fixed point of re-escaping. -/
theorem escape_idempotent_on_clean_witness :
    escape_xml_string "AB.x".data = "AB.x".data ∧
    escape_xml_string (escape_xml_string "a-b äß".data)
      = escape_xml_string "a-b äß".data :=
  ⟨escape_idempotent_on_clean.1 "AB.x".data (by decide),
   escape_idempotent_on_clean.2 "a-b äß".data (by decide)⟩

/-! ## Interface fragment scenario and NAT fragment structure -/

/-- The single record of the interface-fragment scenario of the spec. -/
def scenarioRecord : VLANConfig :=
  { vlan_id := 100, ip_network := "192.168.100.x".data,
    description := "TestVLAN".data, wan_assignment := 1 }

/-- The options of the interface-fragment scenario: `opt_counter = 1`,
`firewall_number = 1`, and the WAN addresses of the CLI defaults. -/
def scenarioOptions : ConfigOptions :=
  { opt_counter := 1, firewallNr := 1,
    wan1 := "10.11.12.11".data, wan2 := "10.11.12.12".data,
    wan3 := "10.11.12.13".data }

/-- C7 — for the record `(100, "192.168.100.x", "TestVLAN", 1)` with
`opt_counter = 1` and `firewall_number = 1`, the Interface fragment is the
single `opt1` element whose `if` sub-element (the link) is `vlan0100` and
whose `ipaddr` sub-element is `192.168.100.251`, the last octet being
`250 + firewall_number`. -/
theorem interface_fragment_scenario :
    generate_interface_xml [scenarioRecord] scenarioOptions =
      ("<opt1>\n  <if>vlan0100</if>\n  <descr>V100_TestVLAN</descr>\n"
        ++ "  <enable>1</enable>\n  <spoofmac/>\n"
        ++ "  <ipaddr>192.168.100.251</ipaddr>\n  <subnet>24</subnet>\n</opt1>\n").data ∧
    containsSeq "<opt1>".data (generate_interface_xml [scenarioRecord] scenarioOptions) = true ∧
    containsSeq "<if>vlan0100</if>".data
      (generate_interface_xml [scenarioRecord] scenarioOptions) = true ∧
    containsSeq "<ipaddr>192.168.100.251</ipaddr>".data
      (generate_interface_xml [scenarioRecord] scenarioOptions) = true := by
  refine ⟨by decide, by decide, by decide, by decide⟩

theorem natRuleBlocks_length (configs : List VLANConfig) (optC : Int)
    (opts : ConfigOptions) (ts : Nat → List Char) (i : Nat) :
    (natRuleBlocks configs optC opts ts i).length = configs.length := by
  induction configs generalizing optC i with
  | nil => rfl
  | cons cfg rest ih => simp [natRuleBlocks, ih]

theorem natRuleBlocks_mem {p : List Char} {configs : List VLANConfig} {optC : Int}
    {opts : ConfigOptions} {ts : Nat → List Char} {i : Nat}
    (h : p ∈ natRuleBlocks configs optC opts ts i) :
    ∃ cfg oc j, p = natRuleBlock cfg oc opts (ts j) := by
  induction configs generalizing optC i with
  | nil => simp [natRuleBlocks] at h
  | cons cfg rest ih =>
    rcases List.mem_cons.mp h with h | h
    · exact ⟨cfg, optC, i, h⟩
    · exact ih h

theorem headMatches_append (pat rest : List Char) :
    headMatches pat (pat ++ rest) = true := by
  simp [headMatches, List.take_left]

theorem natRuleBlock_starts_with_rule (cfg : VLANConfig) (oc : Int)
    (opts : ConfigOptions) (ts : List Char) :
    headMatches "<rule>\n".data (natRuleBlock cfg oc opts ts) = true := by
  simp only [natRuleBlock, natRulePre, List.append_assoc]
  exact headMatches_append _ _

set_option maxHeartbeats 1600000 in
/-- C10 — the NAT fragment always begins with one extra top-level element,
`<mode>advanced</mode>`, before the per-record rule elements: the fragment
text is the concatenation of `count + 1` top-level pieces whose first is
the mode element and whose remaining pieces each are one `<rule>` element
per record. -/
theorem nat_fragment_extra_mode_element (configs : List VLANConfig)
    (opts : ConfigOptions) (ts : Nat → List Char) :
    generate_nat_xml configs opts ts =
      ("<mode>advanced</mode>\n".data
        :: natRuleBlocks configs opts.opt_counter opts ts 0).flatten ∧
    ("<mode>advanced</mode>\n".data
        :: natRuleBlocks configs opts.opt_counter opts ts 0).length
      = configs.length + 1 ∧
    ("<mode>advanced</mode>\n".data
        :: natRuleBlocks configs opts.opt_counter opts ts 0).head?
      = some "<mode>advanced</mode>\n".data ∧
    ∀ p ∈ natRuleBlocks configs opts.opt_counter opts ts 0,
      headMatches "<rule>\n".data p = true := by
  refine ⟨rfl, by rw [List.length_cons, natRuleBlocks_length], rfl, ?_⟩
  intro p hp
  rcases natRuleBlocks_mem hp with ⟨cfg, oc, j, rfl⟩
  exact natRuleBlock_starts_with_rule cfg oc opts (ts j)

/-- C10 witness — the per-rule clause of the structure theorem applied to a
concrete one-record run. -/
theorem nat_fragment_extra_mode_element_witness :
    headMatches "<rule>\n".data
      (natRuleBlock scenarioRecord 6 scenarioOptions "0.0000".data) = true :=
  (nat_fragment_extra_mode_element [scenarioRecord]
      { scenarioOptions with opt_counter := 6 } (fun _ => "0.0000".data)).2.2.2
    (natRuleBlock scenarioRecord 6 scenarioOptions "0.0000".data)
    (List.mem_singleton.mpr rfl)

/-! ## C1: behaviour of the NAT renderer on invalid WAN assignments -/

/-- A record whose `wan_assignment` lies outside the set of the three WAN
ids. -/
def invalidWanRecord : VLANConfig :=
  { vlan_id := 100, ip_network := "10.0.0.x".data,
    description := "Lab100".data, wan_assignment := 4 }

set_option maxRecDepth 40000 in
/-- C1 counterexample — `generate_nat_xml` does not fail on a record whose
`wan_assignment` is 4: it renders a full `<rule>` element for that record,
with an empty `<target>`, because the if/elif chain of src/main.py lines
419-425 has no else branch and no raise, so `wan_ip` keeps its initial
empty-string value. -/
theorem nat_renders_rule_for_invalid_wan :
    (natRuleBlocks [invalidWanRecord] scenarioOptions.opt_counter scenarioOptions
        (fun _ => "0.0000".data) 0).length = 1 ∧
    containsSeq "<rule>\n".data
      (generate_nat_xml [invalidWanRecord] scenarioOptions (fun _ => "0.0000".data)) = true ∧
    containsSeq "<target></target>".data
      (generate_nat_xml [invalidWanRecord] scenarioOptions (fun _ => "0.0000".data)) = true := by
  refine ⟨by decide, by decide, by decide⟩

theorem wanTarget_empty {cfg : VLANConfig} (opts : ConfigOptions)
    (h1 : cfg.wan_assignment ≠ 1) (h2 : cfg.wan_assignment ≠ 2)
    (h3 : cfg.wan_assignment ≠ 3) : wanTarget cfg opts = [] := by
  simp [wanTarget, h1, h2, h3]

theorem natRuleBlock_empty_target {cfg : VLANConfig} {opts : ConfigOptions}
    (h : wanTarget cfg opts = []) (oc : Int) (ts : List Char) :
    ∃ a b, natRuleBlock cfg oc opts ts = a ++ "<target></target>".data ++ b := by
  refine ⟨natRulePre cfg oc ts ++ "  ".data, "\n".data ++ natRulePost ts, ?_⟩
  have hsplit : ("  <target>".data : List Char) ++ "</target>\n".data
      = "  ".data ++ ("<target></target>".data ++ "\n".data) := by decide
  simp only [natRuleBlock, h, List.append_nil, List.append_assoc]
  rw [← List.append_assoc "  <target>".data, hsplit]
  simp [List.append_assoc]

theorem flatten_segment_of_mem {pat x : List Char} {ls : List (List Char)}
    (hx : x ∈ ls) (h : ∃ a b, x = a ++ pat ++ b) :
    ∃ a b, ls.flatten = a ++ pat ++ b := by
  induction ls with
  | nil => simp at hx
  | cons y rest ih =>
    rcases List.mem_cons.mp hx with rfl | hx'
    · rcases h with ⟨a, b, hab⟩
      exact ⟨a, b ++ rest.flatten, by simp [hab, List.append_assoc]⟩
    · rcases ih hx' with ⟨a, b, hab⟩
      exact ⟨y ++ a, b, by simp [hab, List.append_assoc]⟩

theorem natRuleBlocks_mem_of_cfg {cfg : VLANConfig} {configs : List VLANConfig}
    (opts : ConfigOptions) (ts : Nat → List Char) (optC : Int) (i : Nat)
    (hmem : cfg ∈ configs) :
    ∃ oc j, natRuleBlock cfg oc opts (ts j) ∈ natRuleBlocks configs optC opts ts i := by
  induction configs generalizing optC i with
  | nil => simp at hmem
  | cons c rest ih =>
    rcases List.mem_cons.mp hmem with rfl | hmem'
    · exact ⟨optC, i, List.mem_cons_self _ _⟩
    · rcases ih (optC + 1) (i + 1) hmem' with ⟨oc, j, hj⟩
      exact ⟨oc, j, List.mem_cons_of_mem _ hj⟩

/-- C1 (amended) — for a record whose `wan_assignment` is outside the three
WAN ids, `generate_nat_xml` raises no error and still renders that record:
its WAN target resolves to the empty string and the produced fragment
contains the rule's empty `<target></target>` element. -/
theorem nat_no_failure_on_invalid_wan (cfg : VLANConfig) (opts : ConfigOptions)
    (configs : List VLANConfig) (ts : Nat → List Char)
    (h1 : cfg.wan_assignment ≠ 1) (h2 : cfg.wan_assignment ≠ 2)
    (h3 : cfg.wan_assignment ≠ 3) (hmem : cfg ∈ configs) :
    wanTarget cfg opts = [] ∧
    ∃ a b, generate_nat_xml configs opts ts = a ++ "<target></target>".data ++ b := by
  have hempty := wanTarget_empty opts h1 h2 h3
  refine ⟨hempty, ?_⟩
  rcases natRuleBlocks_mem_of_cfg opts ts opts.opt_counter 0 hmem with ⟨oc, j, hj⟩
  rcases flatten_segment_of_mem hj (natRuleBlock_empty_target hempty oc (ts j)) with ⟨a, b, hab⟩
  exact ⟨"<mode>advanced</mode>\n".data ++ a, b, by
    simp [generate_nat_xml, hab, List.append_assoc]⟩

/-- C1 witness — the amended theorem at the concrete invalid record with
`wan_assignment = 4` in a one-record run. -/
theorem nat_no_failure_on_invalid_wan_witness :
    wanTarget invalidWanRecord scenarioOptions = [] ∧
    ∃ a b, generate_nat_xml [invalidWanRecord] scenarioOptions (fun _ => "0.0000".data)
      = a ++ "<target></target>".data ++ b :=
  nat_no_failure_on_invalid_wan invalidWanRecord scenarioOptions [invalidWanRecord]
    (fun _ => "0.0000".data) (by decide) (by decide) (by decide)
    (List.mem_singleton.mpr rfl)

/-! ## CSV writing (`save_to_csv`, src/main.py lines 194-213, and the row
format of `generate_csv`, src/generate_csv.py lines 546-634) -/

/-- Python `csv.writer` with the default dialect quotes a field exactly
when it contains the delimiter, the quote character, or a line-terminator
character. -/
def csvQuoteNeeded (f : List Char) : Bool :=
  f.any (fun c => c == ',' || c == '"' || c == '\r' || c == '\n')

/-- QUOTE_MINIMAL field encoding of Python `csv.writer`: quote when needed,
doubling embedded quote characters. -/
def csvEscapeField (f : List Char) : List Char :=
  if csvQuoteNeeded f then
    '"' :: (f.map (fun c => if c = '"' then ['"', '"'] else [c])).flatten ++ ['"']
  else f

/-- One `writerow` call of Python `csv.writer` on a file opened with
`newline=""`: comma-separated encoded fields plus the default `\r\n`
line terminator. -/
def csvRowText (fields : List (List Char)) : List Char :=
  List.intercalate [','] (fields.map csvEscapeField) ++ "\r\n".data

/-- The header row written by `save_to_csv` (src/main.py line 207) and by
`generate_csv` (src/generate_csv.py line 569). -/
def csvHeader : List (List Char) :=
  ["VLAN".data, "IP Range".data, "Beschreibung".data, "WAN".data]

/-- The four cells `save_to_csv` passes to `writerow` for one record
(src/main.py line 210); `csv.writer` stringifies the two `int` cells. -/
def configRow (cfg : VLANConfig) : List (List Char) :=
  [intStr cfg.vlan_id, cfg.ip_network, cfg.description, intStr cfg.wan_assignment]

/-- Model of `save_to_csv` (src/main.py lines 194-213): the text written to
the output file. -/
def save_to_csv (configs : List VLANConfig) : List Char :=
  csvRowText csvHeader ++ (configs.map (fun c => csvRowText (configRow c))).flatten

/-! ## Record generator (`generate_vlan_configurations`, src/main.py lines
101-191, and `generate_csv`, src/generate_csv.py lines 546-634) -/

/-- The abstract random draws consumed by one generation run, one stream
per Faker call site, replacing the process-global random state. -/
structure GenStreams where
  vlanRaw : Nat → Nat
  ipRaw : Nat → Nat × Nat × Nat × Nat
  deptRaw : Nat → Nat
  wanRaw : Nat → Nat

/-- Models `fake.random_int(min=10, max=4094)` (src/main.py line 139): the
raw draw reduced to the inclusive VLAN id range. -/
def vlanDraw (vRaw : Nat → Nat) (k : Nat) : Int :=
  10 + (vRaw k % 4085 : Nat)

/-- Models lines 146-149 of src/main.py: a drawn private IPv4 address is
split into octets and reduced to its first three, yielding the
`"A.B.C.x"` network-base string. -/
def networkBaseOf (oct : Nat × Nat × Nat × Nat) : List Char :=
  natStr (oct.1 % 256) ++ '.' :: natStr (oct.2.1 % 256) ++ '.' :: natStr (oct.2.2.1 % 256)
    ++ ".x".data

/-- The fixed department-name pool of src/main.py lines 156-171. -/
def departments : List (List Char) :=
  ["Sales".data, "IT".data, "HR".data, "Finance".data, "Marketing".data,
   "Operations".data, "Engineering".data, "Support".data, "Admin".data,
   "Guest".data, "Lab".data, "Test".data]

/-- Models `fake.random_element` over the department tuple: the raw draw
selects one of the twelve names. -/
def deptDraw (dRaw : Nat → Nat) (k : Nat) : List Char :=
  departments.getD (dRaw k % departments.length) []

/-- Models `fake.random_int(min=1, max=3)` (src/main.py line 175). -/
def wanDraw (wRaw : Nat → Nat) (k : Nat) : Int :=
  1 + (wRaw k % 3 : Nat)

/-- The rejection-sampling loop of src/main.py lines 138-141 (and 145-153):
draw from the stream, starting at index `k`, until the value is outside
`used`; returns the committed value and the next stream index, or `none`
when `fuel` draws were all rejected (the Python loop would still be
running). -/
def drawFresh {α : Type} [DecidableEq α] (stream : Nat → α) (used : List α) :
    Nat → Nat → Option (α × Nat)
  | _, 0 => none
  | k, fuel + 1 =>
    if stream k ∈ used then drawFresh stream used (k + 1) fuel
    else some (stream k, k + 1)

/-- The `for _ in range(count)` body of `generate_vlan_configurations`
(src/main.py lines 136-186): one fresh VLAN id, one fresh network base, a
department-plus-id description and a WAN draw per record, threading the
used-value sets and the stream positions. -/
def genLoop (st : GenStreams) :
    Nat → List Int → List (List Char) → Nat → Nat → Nat → Nat → Nat →
    Option (List VLANConfig)
  | 0, _, _, _, _, _, _, _ => some []
  | count + 1, usedV, usedN, kv, kn, kd, kw, fuel =>
    (drawFresh (vlanDraw st.vlanRaw) usedV kv fuel).bind (fun p =>
      (drawFresh (fun k => networkBaseOf (st.ipRaw k)) usedN kn fuel).bind (fun q =>
        (genLoop st count (p.1 :: usedV) (q.1 :: usedN) p.2 q.2 (kd + 1) (kw + 1) fuel).map
          (fun rest =>
            { vlan_id := p.1, ip_network := q.1,
              description := deptDraw st.deptRaw kd ++ intStr p.1,
              wan_assignment := wanDraw st.wanRaw kw } :: rest)))

/-- The error kinds of the generator path: `ValueError` for an invalid
count (src/main.py line 115) and the wrapping `ConfigGenerationError`
(line 189). -/
inductive GenError where
  | valueError
  | configGenerationError
deriving DecidableEq

/-- Model of `generate_vlan_configurations` (src/main.py lines 101-191).
The `count < 1` check raises `ValueError` before the `try` block, before
the progress display and before any draw, so the error carries no partial
output.  The over-4084 warning is console output only and is not part of
the returned value.  A `some` result is a completed run; `none` models a
run whose rejection loop has not finished within `fuel` draws. -/
def generate_vlan_configurations (st : GenStreams) (count : Int) (fuel : Nat) :
    Except GenError (Option (List VLANConfig)) :=
  if count < 1 then .error .valueError
  else .ok (genLoop st count.toNat [] [] 0 0 0 0 fuel)

/-- Model of `generate_csv` from src/generate_csv.py lines 546-634: the
`num_records < 1` check (line 558) raises `ValueError` before the output
file is opened (line 567), and a completed run writes the header row and
one row per generated record, with the same row shape and the same
rejection-sampling loops as `generate_vlan_configurations`. -/
def generate_csv (st : GenStreams) (num_records : Int) (fuel : Nat) :
    Except GenError (Option (List Char)) :=
  if num_records < 1 then .error .valueError
  else
    .ok ((genLoop st num_records.toNat [] [] 0 0 0 0 fuel).map
      (fun configs =>
        csvRowText csvHeader ++ (configs.map (fun c => csvRowText (configRow c))).flatten))

theorem drawFresh_not_mem {α : Type} [DecidableEq α] {stream : Nat → α}
    {used : List α} {v : α} {k k' fuel : Nat}
    (h : drawFresh stream used k fuel = some (v, k')) : v ∉ used := by
  induction fuel generalizing k with
  | zero => simp [drawFresh] at h
  | succ n ih =>
    simp only [drawFresh] at h
    by_cases hm : stream k ∈ used
    · rw [if_pos hm] at h
      exact ih h
    · rw [if_neg hm] at h
      obtain ⟨rfl, rfl⟩ := Prod.mk.injEq .. ▸ Option.some.injEq .. ▸ h
      exact hm

theorem genLoop_spec (st : GenStreams) :
    ∀ (count : Nat) (usedV : List Int) (usedN : List (List Char))
      (kv kn kd kw fuel : Nat) (l : List VLANConfig),
      genLoop st count usedV usedN kv kn kd kw fuel = some l →
      l.length = count ∧
      ((l.map VLANConfig.vlan_id).Nodup ∧
        ∀ v ∈ l.map VLANConfig.vlan_id, v ∉ usedV) ∧
      ((l.map VLANConfig.ip_network).Nodup ∧
        ∀ nb ∈ l.map VLANConfig.ip_network, nb ∉ usedN) := by
  intro count
  induction count with
  | zero =>
    intro usedV usedN kv kn kd kw fuel l h
    simp only [genLoop, Option.some.injEq] at h
    subst h
    simp
  | succ n ih =>
    intro usedV usedN kv kn kd kw fuel l h
    simp only [genLoop, Option.bind_eq_some, Option.map_eq_some'] at h
    obtain ⟨⟨v, kv'⟩, hv, ⟨nb, kn'⟩, hn, rest, hr, rfl⟩ := h
    obtain ⟨hlen, ⟨hvn, hvu⟩, hnn, hnu⟩ := ih _ _ _ _ _ _ _ _ hr
    have hv' := drawFresh_not_mem hv
    have hn' := drawFresh_not_mem hn
    refine ⟨by simp [hlen], ⟨?_, ?_⟩, ?_, ?_⟩
    · exact List.nodup_cons.mpr
        ⟨fun hmem => (hvu v hmem) (List.mem_cons_self v usedV), hvn⟩
    · intro x hx
      rcases List.mem_cons.mp hx with rfl | hx'
      · exact hv'
      · exact fun hxu => (hvu x hx') (List.mem_cons_of_mem v hxu)
    · exact List.nodup_cons.mpr
        ⟨fun hmem => (hnu nb hmem) (List.mem_cons_self nb usedN), hnn⟩
    · intro x hx
      rcases List.mem_cons.mp hx with rfl | hx'
      · exact hn'
      · exact fun hxu => (hnu x hx') (List.mem_cons_of_mem nb hxu)

/-- C4 — whenever a run of `generate_vlan_configurations` with
`1 ≤ count ≤ 4084` completes, it yields exactly `count` records whose
VLAN ids contain no duplicate and whose network bases contain no
duplicate.  (Completion of the rejection-sampling loops is a property of
the random stream; a run that has not completed within the fuel bound
returns no list at all.) -/
theorem generate_vlan_configurations_uniqueness (st : GenStreams)
    (count : Int) (fuel : Nat) (l : List VLANConfig)
    (h1 : 1 ≤ count) (h2 : count ≤ 4084)
    (h : generate_vlan_configurations st count fuel = .ok (some l)) :
    (l.length : Int) = count ∧
    (l.map VLANConfig.vlan_id).Nodup ∧
    (l.map VLANConfig.ip_network).Nodup := by
  have hnl : ¬ count < 1 := by omega
  rw [generate_vlan_configurations, if_neg hnl] at h
  obtain h' : genLoop st count.toNat [] [] 0 0 0 0 fuel = some l := by
    simpa using h
  obtain ⟨hlen, ⟨hvn, _⟩, hnn, _⟩ := genLoop_spec st count.toNat [] [] 0 0 0 0 fuel l h'
  refine ⟨?_, hvn, hnn⟩
  rw [hlen]
  exact Int.toNat_of_nonneg (by omega)

/-- The concrete draw streams used by the generator witnesses: ascending
VLAN draws and ascending third octets. -/
def witnessStreams : GenStreams :=
  { vlanRaw := fun k => k, ipRaw := fun k => (10, 0, k, 1),
    deptRaw := fun _ => 0, wanRaw := fun _ => 0 }

/-- The record list produced by `witnessStreams` for a two-record run. -/
def witnessRecords : List VLANConfig :=
  [{ vlan_id := 10, ip_network := "10.0.0.x".data,
     description := "Sales10".data, wan_assignment := 1 },
   { vlan_id := 11, ip_network := "10.0.1.x".data,
     description := "Sales11".data, wan_assignment := 1 }]

/-- C4 witness — the uniqueness theorem applied to a concrete completed
two-record run. -/
theorem generate_vlan_configurations_uniqueness_witness :
    (witnessRecords.length : Int) = 2 ∧
    (witnessRecords.map VLANConfig.vlan_id).Nodup ∧
    (witnessRecords.map VLANConfig.ip_network).Nodup :=
  generate_vlan_configurations_uniqueness witnessStreams 2 4 witnessRecords
    (by decide) (by decide)
    (by rw [generate_vlan_configurations, if_neg (by decide)]
        exact congrArg Except.ok (by decide))

/-- C8 — a count below one is rejected by the validation check of the
record generator (src/main.py line 114) and of the CSV generator
(src/generate_csv.py line 558) with a `ValueError` raised before any file
is opened or any record drawn, so no output is produced at all. -/
theorem count_below_one_rejected (st : GenStreams) (count : Int) (fuel : Nat)
    (h : count < 1) :
    generate_vlan_configurations st count fuel = .error .valueError ∧
    generate_csv st count fuel = .error .valueError := by
  rw [generate_vlan_configurations, if_pos h, generate_csv, if_pos h]
  exact ⟨rfl, rfl⟩

/-- C8 witness — the rejection theorem at the concrete count zero. -/
theorem count_below_one_rejected_witness :
    generate_vlan_configurations witnessStreams 0 1 = .error .valueError ∧
    generate_csv witnessStreams 0 1 = .error .valueError :=
  count_below_one_rejected witnessStreams 0 1 (by decide)

/-! ## XML documents and the splicer (`modify_xml_config`, src/main.py
lines 559-605) -/

mutual
/-- An XML element tree as lxml exposes it to `modify_xml_config`: tag,
attributes, the text between the opening tag and the first child, and the
child elements.  The base file is parsed with `remove_blank_text=True` and
re-serialised with `pretty_print=True`, so inter-element whitespace is not
part of the model.  `XForest` is the child list, kept as a mutual
inductive so that all traversals are structural. -/
inductive XElem where
  | mk (tag : List Char) (attrs : List (List Char × List Char))
      (text : Option (List Char)) (children : XForest)
inductive XForest where
  | nil
  | cons (e : XElem) (rest : XForest)
end

deriving instance DecidableEq for XElem
deriving instance DecidableEq for XForest

/-- Tag accessor of an element. -/
def XElem.tag : XElem → List Char
  | .mk t _ _ _ => t

/-- Attribute-list accessor of an element. -/
def XElem.attrs : XElem → List (List Char × List Char)
  | .mk _ a _ _ => a

mutual
/-- Models `root.find(tag_path)` for the path shapes the repository uses
(`./interfaces`, `./nat/outbound`, ...): the path is the list of tags after
`./`, and `find` returns the first element reached by descending through
children along the tag sequence, backtracking over siblings, in document
order — or `None` when no element matches. -/
def findPath : XElem → List (List Char) → Option XElem
  | e, [] => some e
  | .mk _ _ _ ch, t :: rest => findInForest ch t rest
def findInForest : XForest → List Char → List (List Char) → Option XElem
  | .nil, _, _ => none
  | .cons c cs, t, rest =>
    if c.tag = t then
      match findPath c rest with
      | some r => some r
      | none => findInForest cs t rest
    else findInForest cs t rest
end

mutual
/-- Functional counterpart of the in-place mutation of the found target:
applies `f` at exactly the element `findPath` locates, rebuilding the
spine; `none` when the path does not match. -/
def replacePath : XElem → List (List Char) → (XElem → XElem) → Option XElem
  | e, [], f => some (f e)
  | .mk t a x ch, tg :: rest, f =>
    match replaceInForest ch tg rest f with
    | some ch' => some (.mk t a x ch')
    | none => none
def replaceInForest : XForest → List Char → List (List Char) → (XElem → XElem) → Option XForest
  | .nil, _, _, _ => none
  | .cons c cs, tg, rest, f =>
    if c.tag = tg then
      match replacePath c rest f with
      | some c' => some (.cons c' cs)
      | none =>
        match replaceInForest cs tg rest f with
        | some cs' => some (.cons c cs')
        | none => none
    else
      match replaceInForest cs tg rest f with
      | some cs' => some (.cons c cs')
      | none => none
end

/-- The error raised by `modify_xml_config` (src/main.py lines 604-605):
every underlying failure is wrapped into `XMLGenerationError`. -/
inductive XMLGenerationError where
  | wrapped
deriving DecidableEq

/-- One entry of the fragment-file list handed to `modify_xml_config`:
`none` models a file that does not exist (skipped by the `file_name.exists()`
check at line 592); `some (.error _)` a file whose content fails to parse
once wrapped in the synthetic root; `some (.ok f)` a parsed element list.
Parsing only ever happens in the found-target branch. -/
def FragFile : Type := Option (Except Unit XForest)

/-- Concatenation of two child lists, used to append parsed fragment
elements in file order. -/
def forestAppend : XForest → XForest → XForest
  | .nil, g => g
  | .cons e r, g => .cons e (forestAppend r g)

/-- Sequential processing of the fragment files in list order: missing
files are skipped, the first malformed fragment aborts with the wrapped
error, and parsed element lists are appended in order. -/
def collectFrags : List FragFile → Except Unit XForest
  | [] => .ok .nil
  | none :: rest => collectFrags rest
  | some (.error e) :: _ => .error e
  | some (.ok f) :: rest => (collectFrags rest).map (forestAppend f)

/-- Model of `modify_xml_config` (src/main.py lines 559-605) on the parsed
base document: locate `tag_path`; when the target is absent the function
does nothing (the `if target_elem is not None` guard has no else branch)
and the document is re-serialised unchanged; when present, the target's
children are removed, its text set to the fixed indentation string, and
every existing fragment file's parsed elements appended, a parse failure
being wrapped into `XMLGenerationError`.  (I/O failure on the final write
is outside the model.) -/
def modify_xml_config (tree : XElem) (path : List (List Char))
    (frags : List FragFile) : Except XMLGenerationError XElem :=
  match findPath tree path with
  | none => .ok tree
  | some _ =>
    match collectFrags frags with
    | .error _ => .error .wrapped
    | .ok newChildren =>
      .ok ((replacePath tree path
        (fun e => .mk e.tag e.attrs (some "\n    ".data) newChildren)).getD tree)

/-- C3 — splicing against a target path absent from the document raises no
error and returns the document tree unchanged: no element is added,
removed or altered, whatever the fragment list contains (fragments are
never even parsed in that case). -/
theorem modify_xml_config_noop_on_missing_path (tree : XElem)
    (path : List (List Char)) (frags : List FragFile)
    (h : findPath tree path = none) :
    modify_xml_config tree path frags = .ok tree := by
  unfold modify_xml_config
  rw [h]

/-- A small concrete base document: a root with `interfaces` and `vlans`
children. -/
def witnessDoc : XElem :=
  .mk "opnsense".data [] none
    (.cons (.mk "interfaces".data [] none .nil)
      (.cons (.mk "vlans".data [] none .nil) .nil))

/-- C3 witness — the no-op theorem applied to the concrete document and
the absent path `./nat/outbound`, with a malformed fragment in the list to
show it is not even parsed. -/
theorem modify_xml_config_noop_on_missing_path_witness :
    modify_xml_config witnessDoc ["nat".data, "outbound".data]
      [some (.error ()), none] = .ok witnessDoc :=
  modify_xml_config_noop_on_missing_path witnessDoc
    ["nat".data, "outbound".data] [some (.error ()), none] (by decide)

/-! ## CSV reading (`load_from_csv`, src/main.py lines 216-252) -/

/-- The universal-newline translation performed by `csv_file.open()` with
the default `newline=None` (src/main.py line 230): every `\r\n` pair and
every lone `\r` in the file becomes `\n` — including inside quoted
fields, which is why carriage returns do not survive a round trip. -/
def univNewlines : List Char → List Char
  | [] => []
  | '\r' :: '\n' :: rest => '\n' :: univNewlines rest
  | '\r' :: rest => '\n' :: univNewlines rest
  | c :: rest => c :: univNewlines rest

/-- The states of the CSV reading automaton of Python's `csv.reader`
(default dialect): at the start of a row, at the start of a non-first
field, inside an unquoted field, inside a quoted field, and just after a
quote character inside a quoted field. -/
inductive CsvMode where
  | startRow
  | startField
  | inField
  | inQuoted
  | quoteInQuoted
deriving DecidableEq

/-- The automaton state: completed rows, the fields of the current row,
the characters of the current field, and the mode.  In `startRow` and
`startField` the current field is always empty. -/
structure CsvState where
  rows : List (List (List Char))
  curRow : List (List Char)
  curField : List Char
  mode : CsvMode
deriving DecidableEq

/-- One character step of the CSV reading automaton, matching Python's
default-dialect `csv.reader` on input whose line endings have already been
normalised to `\n`: a quote at field start opens a quoted field, doubled
quotes inside a quoted field encode one quote character, commas and
newlines outside quoted fields commit the field and the row, a bare
newline at row start yields an empty row, and any character after a
closing quote is carried into an unquoted continuation. -/
def csvStep (st : CsvState) (c : Char) : CsvState :=
  match st.mode with
  | .startRow =>
    if c = '"' then { st with mode := .inQuoted }
    else if c = ',' then
      { st with curRow := st.curRow ++ [st.curField], curField := [], mode := .startField }
    else if c = '\n' then
      { rows := st.rows ++ [[]], curRow := [], curField := [], mode := .startRow }
    else { st with curField := [c], mode := .inField }
  | .startField =>
    if c = '"' then { st with mode := .inQuoted }
    else if c = ',' then
      { st with curRow := st.curRow ++ [st.curField], curField := [] }
    else if c = '\n' then
      { rows := st.rows ++ [st.curRow ++ [st.curField]], curRow := [], curField := [],
        mode := .startRow }
    else { st with curField := [c], mode := .inField }
  | .inField =>
    if c = ',' then
      { st with curRow := st.curRow ++ [st.curField], curField := [], mode := .startField }
    else if c = '\n' then
      { rows := st.rows ++ [st.curRow ++ [st.curField]], curRow := [], curField := [],
        mode := .startRow }
    else { st with curField := st.curField ++ [c] }
  | .inQuoted =>
    if c = '"' then { st with mode := .quoteInQuoted }
    else { st with curField := st.curField ++ [c] }
  | .quoteInQuoted =>
    if c = '"' then { st with curField := st.curField ++ ['"'], mode := .inQuoted }
    else if c = ',' then
      { st with curRow := st.curRow ++ [st.curField], curField := [], mode := .startField }
    else if c = '\n' then
      { rows := st.rows ++ [st.curRow ++ [st.curField]], curRow := [], curField := [],
        mode := .startRow }
    else { st with curField := st.curField ++ [c], mode := .inField }

/-- The initial automaton state. -/
def csvInit : CsvState :=
  { rows := [], curRow := [], curField := [], mode := .startRow }

/-- End-of-input behaviour: a row still in progress is emitted. -/
def csvFinish (st : CsvState) : List (List (List Char)) :=
  match st.mode with
  | .startRow => st.rows
  | _ => st.rows ++ [st.curRow ++ [st.curField]]

/-- The rows read by `csv.reader` from already-newline-normalised text. -/
def csvScan (s : List Char) : List (List (List Char)) :=
  csvFinish (s.foldl csvStep csvInit)

/-- The errors `load_from_csv` can surface: the `except` clause at
src/main.py line 249 wraps `OSError`, `ValueError` and `IndexError` into
`ConfigGenerationError`; a `StopIteration` from `next(reader)` on an empty
file (line 232) is not caught and escapes as-is. -/
inductive LoadError where
  | configGenerationError
  | stopIteration
deriving DecidableEq

/-- One row of src/main.py lines 234-247: index into the row (IndexError
when it has fewer than four cells), strip each cell, and parse the `VLAN`
and `WAN` cells as integers (ValueError on failure). -/
def parseRow (row : List (List Char)) : Option VLANConfig :=
  match row.get? 0, row.get? 1, row.get? 2, row.get? 3 with
  | some a, some b, some c, some d =>
    (pyInt (pyStrip a)).bind (fun v =>
      (pyInt (pyStrip d)).map (fun w =>
        { vlan_id := v, ip_network := pyStrip b,
          description := pyStrip c, wan_assignment := w }))
  | _, _, _, _ => none

/-- The record-building loop over the data rows. -/
def parseRows : List (List (List Char)) → Except LoadError (List VLANConfig)
  | [] => .ok []
  | row :: rest =>
    match parseRow row with
    | none => .error .configGenerationError
    | some cfg => (parseRows rest).map (fun l => cfg :: l)

/-- Model of `load_from_csv` (src/main.py lines 216-252): universal-newline
file reading, CSV scanning, skipping the header row, and building one
record per remaining row. -/
def load_from_csv (file : List Char) : Except LoadError (List VLANConfig) :=
  match csvScan (univNewlines file) with
  | [] => .error .stopIteration
  | _header :: dataRows => parseRows dataRows

deriving instance DecidableEq for Except

/-- A record whose description carries leading whitespace. -/
def paddedRecord : VLANConfig :=
  { vlan_id := 100, ip_network := "10.0.0.x".data,
    description := " A".data, wan_assignment := 1 }

/-- C6 counterexample — the save/load round trip is not the identity on
every record list: `load_from_csv` strips each cell (src/main.py lines
235-238), so a description with leading whitespace comes back without
it. -/
theorem save_load_not_identity_on_padded :
    load_from_csv (save_to_csv [paddedRecord]) ≠ .ok [paddedRecord] := by
  decide

/-! ## Inverse lemmas for decimal printing and reading -/

theorem pyInt_cons (c : Char) (rest : List Char) :
    pyInt (c :: rest)
      = if c = '-' then (parseNat rest).map (fun n => -(n : Int))
        else if c = '+' then (parseNat rest).map (fun n => (n : Int))
        else (parseNat (c :: rest)).map (fun n => (n : Int)) := rfl

theorem parseNatAux_cons_digit {c : Char} (h : '0' ≤ c ∧ c ≤ '9')
    (rest : List Char) (acc : Nat) :
    parseNatAux (c :: rest) acc = parseNatAux rest (acc * 10 + (c.toNat - 48)) := by
  simp only [parseNatAux, if_pos h]

theorem natStrAux_fuel_irrel :
    ∀ (f1 : Nat), ∀ {f2 n : Nat}, n < f1 → n < f2 →
      natStrAux f1 n = natStrAux f2 n := by
  intro f1
  induction f1 with
  | zero => intro f2 n h1 _; omega
  | succ g1 ih =>
    intro f2 n h1 h2
    cases f2 with
    | zero => omega
    | succ g2 =>
      simp only [natStrAux]
      by_cases hn : n < 10
      · rw [if_pos hn, if_pos hn]
      · rw [if_neg hn, if_neg hn]
        have hdiv : n / 10 < n := Nat.div_lt_self (by omega) (by omega)
        rw [@ih g2 (n / 10) (by omega) (by omega)]

theorem natStr_eq (n : Nat) :
    natStr n = if n < 10 then [Nat.digitChar n]
               else natStr (n / 10) ++ [Nat.digitChar (n % 10)] := by
  by_cases hn : n < 10
  · rw [if_pos hn]
    simp only [natStr, natStrAux, if_pos hn]
  · rw [if_neg hn]
    simp only [natStr, natStrAux, if_neg hn]
    have hdiv : n / 10 < n := Nat.div_lt_self (by omega) (by omega)
    rw [@natStrAux_fuel_irrel n (n / 10 + 1) (n / 10) (by omega) (by omega)]
    simp only [natStrAux]

theorem digitChar_is_digit {m : Nat} (h : m < 10) :
    '0' ≤ Nat.digitChar m ∧ Nat.digitChar m ≤ '9' := by
  interval_cases m <;> exact ⟨by decide, by decide⟩

theorem digitChar_toNat {m : Nat} (h : m < 10) :
    (Nat.digitChar m).toNat - 48 = m := by
  interval_cases m <;> decide

theorem natStr_all_digits :
    ∀ n, ∀ c ∈ natStr n, '0' ≤ c ∧ c ≤ '9' := by
  intro n
  induction n using Nat.strong_induction_on with
  | _ n ih =>
    intro c hc
    rw [natStr_eq] at hc
    by_cases hn : n < 10
    · rw [if_pos hn] at hc
      rcases List.mem_singleton.mp hc with rfl
      exact digitChar_is_digit hn
    · rw [if_neg hn] at hc
      rcases List.mem_append.mp hc with h | h
      · exact ih (n / 10) (Nat.div_lt_self (by omega) (by omega)) c h
      · rcases List.mem_singleton.mp h with rfl
        exact digitChar_is_digit (Nat.mod_lt n (by omega))

theorem natStr_ne_nil (n : Nat) : natStr n ≠ [] := by
  rw [natStr_eq]
  by_cases hn : n < 10
  · rw [if_pos hn]; exact List.cons_ne_nil _ _
  · rw [if_neg hn]; simp

theorem parseNatAux_natStr_append :
    ∀ n rest acc, parseNatAux (natStr n ++ rest) acc
      = parseNatAux rest (acc * 10 ^ (natStr n).length + n) := by
  intro n
  induction n using Nat.strong_induction_on with
  | _ n ih =>
    intro rest acc
    by_cases hn : n < 10
    · rw [natStr_eq, if_pos hn, List.singleton_append,
        parseNatAux_cons_digit (digitChar_is_digit hn), digitChar_toNat hn]
      norm_num
    · rw [natStr_eq, if_neg hn, List.append_assoc, List.singleton_append,
        ih (n / 10) (Nat.div_lt_self (by omega) (by omega)),
        parseNatAux_cons_digit (digitChar_is_digit (Nat.mod_lt n (by omega))),
        digitChar_toNat (Nat.mod_lt n (by omega))]
      congr 1
      rw [List.length_append, List.length_singleton, pow_succ, ← mul_assoc]
      generalize acc * 10 ^ (natStr (n / 10)).length = A
      omega

theorem parseNat_natStr (n : Nat) : parseNat (natStr n) = some n := by
  rcases hns : natStr n with _ | ⟨c, rest⟩
  · exact absurd hns (natStr_ne_nil n)
  · have h := parseNatAux_natStr_append n [] 0
    rw [List.append_nil, hns] at h
    have h0 : parseNat (c :: rest) = parseNatAux (c :: rest) 0 := rfl
    have h1 : parseNatAux [] (0 * 10 ^ (c :: rest).length + n) = some (0 * 10 ^ (c :: rest).length + n) := rfl
    rw [h0, h, h1]
    norm_num

theorem natStr_head_not_sign (n : Nat) :
    ∀ c ∈ natStr n, c ≠ '-' ∧ c ≠ '+' := by
  intro c hc
  obtain ⟨h1, h2⟩ := natStr_all_digits n c hc
  constructor <;> rintro rfl <;> revert h1 <;> decide

theorem pyInt_intStr (i : Int) : pyInt (intStr i) = some i := by
  by_cases hi : i < 0
  · rw [intStr, if_pos hi, pyInt_cons, if_pos rfl, parseNat_natStr]
    have h1 : (some i.natAbs).map (fun n => -(n : Int)) = some (-(i.natAbs : Int)) := rfl
    rw [h1, Option.some.injEq]
    omega
  · rw [intStr, if_neg hi]
    rcases hns : natStr i.toNat with _ | ⟨c, rest⟩
    · exact absurd hns (natStr_ne_nil i.toNat)
    · have hc : c ∈ natStr i.toNat := by rw [hns]; exact List.mem_cons_self _ _
      obtain ⟨hm, hp⟩ := natStr_head_not_sign i.toNat c hc
      have h := parseNat_natStr i.toNat
      rw [hns] at h
      rw [pyInt_cons, if_neg hm, if_neg hp, h]
      have h1 : (some i.toNat).map (fun n => (n : Int)) = some (i.toNat : Int) := rfl
      rw [h1, Option.some.injEq]
      omega

/-! ## Stripping and field-content lemmas -/

theorem dropWhile_eq_self_of_all {p : Char → Bool} :
    ∀ {l : List Char}, (∀ c ∈ l, p c = false) → l.dropWhile p = l := by
  intro l h
  cases l with
  | nil => rfl
  | cons c rest =>
    rw [List.dropWhile_cons, h c (List.mem_cons_self c rest)]
    simp

theorem pyStrip_eq_self {l : List Char} (h : ∀ c ∈ l, isPySpace c = false) :
    pyStrip l = l := by
  unfold pyStrip
  rw [dropWhile_eq_self_of_all h,
    dropWhile_eq_self_of_all (fun c hc => h c (List.mem_reverse.mp hc)),
    List.reverse_reverse]

theorem isPySpace_of_digit {c : Char} (h1 : '0' ≤ c) (h2 : c ≤ '9') :
    isPySpace c = false := by
  simp only [isPySpace, Bool.or_eq_false_iff, beq_eq_false_iff_ne, ne_eq]
  refine ⟨⟨⟨⟨⟨?_, ?_⟩, ?_⟩, ?_⟩, ?_⟩, ?_⟩ <;> rintro rfl <;> revert h1 <;> decide

theorem intStr_no_ws (i : Int) : ∀ c ∈ intStr i, isPySpace c = false := by
  intro c hc
  rw [intStr] at hc
  by_cases hi : i < 0
  · rw [if_pos hi] at hc
    rcases List.mem_cons.mp hc with rfl | hc'
    · decide
    · obtain ⟨h1, h2⟩ := natStr_all_digits i.natAbs c hc'
      exact isPySpace_of_digit h1 h2
  · rw [if_neg hi] at hc
    obtain ⟨h1, h2⟩ := natStr_all_digits i.toNat c hc
    exact isPySpace_of_digit h1 h2

theorem pyStrip_intStr (i : Int) : pyStrip (intStr i) = intStr i :=
  pyStrip_eq_self (intStr_no_ws i)

theorem intStr_no_cr (i : Int) : '\r' ∉ intStr i := by
  intro hc
  have := intStr_no_ws i '\r' hc
  revert this
  decide

theorem intercalate_comma_four (a b c d : List Char) :
    List.intercalate [','] [a, b, c, d]
      = a ++ ',' :: (b ++ ',' :: (c ++ ',' :: d)) := by
  simp [List.intercalate, List.intersperse]

/-! ## Behaviour of the CSV automaton on encoded fields -/

theorem csvStep_comma (R : List (List (List Char))) (C : List (List Char))
    (F : List Char) (m : CsvMode) (hm : m ≠ CsvMode.inQuoted) :
    csvStep ⟨R, C, F, m⟩ ',' = ⟨R, C ++ [F], [], .startField⟩ := by
  cases m
  · rfl
  · rfl
  · rfl
  · exact absurd rfl hm
  · rfl

theorem csvStep_newline (R : List (List (List Char))) (C : List (List Char))
    (F : List Char) (m : CsvMode)
    (hm : m = .startField ∨ m = .inField ∨ m = .quoteInQuoted) :
    csvStep ⟨R, C, F, m⟩ '\n' = ⟨R ++ [C ++ [F]], [], [], .startRow⟩ := by
  rcases hm with rfl | rfl | rfl <;> rfl

theorem csvStep_open_quote (R : List (List (List Char))) (C : List (List Char))
    (m : CsvMode) (hm : m = .startRow ∨ m = .startField) :
    csvStep ⟨R, C, [], m⟩ '"' = ⟨R, C, [], .inQuoted⟩ := by
  rcases hm with rfl | rfl <;> rfl

theorem csvStep_start_char (R : List (List (List Char))) (C : List (List Char))
    (m : CsvMode) (c : Char) (hm : m = .startRow ∨ m = .startField)
    (h1 : c ≠ '"') (h2 : c ≠ ',') (h3 : c ≠ '\n') :
    csvStep ⟨R, C, [], m⟩ c = ⟨R, C, [c], .inField⟩ := by
  rcases hm with rfl | rfl <;> simp [csvStep, h1, h2, h3]

theorem csvStep_inField_char (R : List (List (List Char))) (C : List (List Char))
    (F : List Char) (c : Char) (h2 : c ≠ ',') (h3 : c ≠ '\n') :
    csvStep ⟨R, C, F, .inField⟩ c = ⟨R, C, F ++ [c], .inField⟩ := by
  simp [csvStep, h2, h3]

theorem csvStep_inQuoted_char (R : List (List (List Char))) (C : List (List Char))
    (F : List Char) (c : Char) (h : c ≠ '"') :
    csvStep ⟨R, C, F, .inQuoted⟩ c = ⟨R, C, F ++ [c], .inQuoted⟩ := by
  simp [csvStep, h]

theorem foldl_inField (body : List Char)
    (hbody : ∀ c ∈ body, c ≠ ',' ∧ c ≠ '\n') :
    ∀ (R : List (List (List Char))) (C : List (List Char)) (F : List Char),
      List.foldl csvStep ⟨R, C, F, .inField⟩ body = ⟨R, C, F ++ body, .inField⟩ := by
  induction body with
  | nil => intro R C F; simp
  | cons c rest ih =>
    intro R C F
    obtain ⟨h2, h3⟩ := hbody c (List.mem_cons_self c rest)
    rw [List.foldl_cons, csvStep_inField_char R C F c h2 h3,
      ih (fun d hd => hbody d (List.mem_cons_of_mem c hd))]
    simp

/-- The quote-doubling applied inside a quoted CSV field. -/
def quoteDoubled (f : List Char) : List Char :=
  (f.map (fun c => if c = '"' then ['"', '"'] else [c])).flatten

theorem foldl_inQuoted (f : List Char) :
    ∀ (R : List (List (List Char))) (C : List (List Char)) (F : List Char),
      List.foldl csvStep ⟨R, C, F, .inQuoted⟩ (quoteDoubled f)
        = ⟨R, C, F ++ f, .inQuoted⟩ := by
  induction f with
  | nil => intro R C F; simp [quoteDoubled]
  | cons c rest ih =>
    intro R C F
    by_cases hc : c = '"'
    · subst hc
      have hq : quoteDoubled ('"' :: rest) = '"' :: '"' :: quoteDoubled rest := by
        simp [quoteDoubled]
      rw [hq, List.foldl_cons, List.foldl_cons]
      have s1 : csvStep ⟨R, C, F, .inQuoted⟩ '"' = ⟨R, C, F, .quoteInQuoted⟩ := rfl
      have s2 : csvStep ⟨R, C, F, .quoteInQuoted⟩ '"' = ⟨R, C, F ++ ['"'], .inQuoted⟩ := rfl
      rw [s1, s2, ih]
      simp
    · have hq : quoteDoubled (c :: rest) = c :: quoteDoubled rest := by
        simp [quoteDoubled, hc]
      rw [hq, List.foldl_cons, csvStep_inQuoted_char R C F c hc, ih]
      simp

theorem csvQuoteNeeded_false_mem {f : List Char}
    (hq : csvQuoteNeeded f = false) :
    ∀ c ∈ f, c ≠ ',' ∧ c ≠ '"' ∧ c ≠ '\r' ∧ c ≠ '\n' := by
  intro c hc
  have h := List.any_eq_false.mp hq c hc
  simp only [Bool.or_eq_true, beq_iff_eq, not_or] at h
  exact ⟨h.1.1.1, h.1.1.2, h.1.2, h.2⟩

theorem foldl_field (f : List Char) (m0 : CsvMode)
    (hm : m0 = .startRow ∨ m0 = .startField)
    (R : List (List (List Char))) (C : List (List Char)) :
    ∃ m1, List.foldl csvStep ⟨R, C, [], m0⟩ (csvEscapeField f) = ⟨R, C, f, m1⟩ ∧
      m1 ≠ .inQuoted ∧
      (m0 = .startField → (m1 = .startField ∨ m1 = .inField ∨ m1 = .quoteInQuoted)) := by
  by_cases hq : csvQuoteNeeded f
  · have he : csvEscapeField f = '"' :: (quoteDoubled f ++ ['"']) := by
      rw [csvEscapeField, if_pos hq]
      simp [quoteDoubled]
    refine ⟨.quoteInQuoted, ?_, by decide, fun _ => Or.inr (Or.inr rfl)⟩
    rw [he, List.foldl_cons, csvStep_open_quote R C m0 hm, List.foldl_append,
      foldl_inQuoted f R C [], List.foldl_cons]
    have s1 : csvStep ⟨R, C, [] ++ f, .inQuoted⟩ '"' = ⟨R, C, [] ++ f, .quoteInQuoted⟩ := rfl
    rw [s1]
    simp
  · have he : csvEscapeField f = f := by
      rw [csvEscapeField, if_neg (by simp [hq])]
    cases f with
    | nil =>
      refine ⟨m0, by rw [he]; rfl, ?_, fun h0 => Or.inl h0⟩
      rcases hm with rfl | rfl <;> decide
    | cons c rest =>
      have hq' : csvQuoteNeeded (c :: rest) = false := Bool.of_not_eq_true hq
      have hname := csvQuoteNeeded_false_mem hq'
      obtain ⟨hc1, hc2, _, hc4⟩ := hname c (List.mem_cons_self c rest)
      refine ⟨.inField, ?_, by decide, fun _ => Or.inr (Or.inl rfl)⟩
      rw [he, List.foldl_cons, csvStep_start_char R C m0 c hm hc2 hc1 hc4,
        foldl_inField rest (fun d hd => ⟨(hname d (List.mem_cons_of_mem c hd)).1,
          (hname d (List.mem_cons_of_mem c hd)).2.2.2⟩) R C [c]]
      simp

/-- One written CSV row after universal-newline translation: encoded
fields joined by commas with a bare `\n` terminator. -/
def rowLineLF (fields : List (List Char)) : List Char :=
  List.intercalate [','] (fields.map csvEscapeField) ++ ['\n']

theorem foldl_row (f0 f1 f2 f3 : List Char) (R : List (List (List Char))) :
    List.foldl csvStep ⟨R, [], [], .startRow⟩ (rowLineLF [f0, f1, f2, f3])
      = ⟨R ++ [[f0, f1, f2, f3]], [], [], .startRow⟩ := by
  have hshape : rowLineLF [f0, f1, f2, f3]
      = csvEscapeField f0 ++ ',' :: (csvEscapeField f1 ++ ',' :: (csvEscapeField f2
          ++ ',' :: (csvEscapeField f3 ++ ['\n']))) := by
    rw [rowLineLF]
    simp only [List.map_cons, List.map_nil, intercalate_comma_four]
    simp [List.append_assoc]
  obtain ⟨m1, h1, hne1, _⟩ := foldl_field f0 .startRow (Or.inl rfl) R []
  obtain ⟨m2, h2, hne2, _⟩ := foldl_field f1 .startField (Or.inr rfl) R ([] ++ [f0])
  obtain ⟨m3, h3, hne3, _⟩ := foldl_field f2 .startField (Or.inr rfl) R (([] ++ [f0]) ++ [f1])
  obtain ⟨m4, h4, _, hcr4⟩ :=
    foldl_field f3 .startField (Or.inr rfl) R ((([] ++ [f0]) ++ [f1]) ++ [f2])
  rw [hshape, List.foldl_append, h1, List.foldl_cons, csvStep_comma _ _ _ _ hne1,
    List.foldl_append, h2, List.foldl_cons, csvStep_comma _ _ _ _ hne2,
    List.foldl_append, h3, List.foldl_cons, csvStep_comma _ _ _ _ hne3,
    List.foldl_append, h4, List.foldl_cons, csvStep_newline _ _ _ _ (hcr4 rfl)]
  simp

theorem list_eq_four {α : Type} {r : List α} (h : r.length = 4) :
    ∃ a b c d, r = [a, b, c, d] := by
  rcases r with _ | ⟨a, _ | ⟨b, _ | ⟨c, _ | ⟨d, rest⟩⟩⟩⟩ <;> simp_all

theorem foldl_rows (rws : List (List (List Char))) (hlen : ∀ r ∈ rws, r.length = 4) :
    ∀ R, List.foldl csvStep ⟨R, [], [], .startRow⟩ ((rws.map rowLineLF).flatten)
      = ⟨R ++ rws, [], [], .startRow⟩ := by
  induction rws with
  | nil => intro R; simp
  | cons r rest ih =>
    intro R
    obtain ⟨a, b, c, d, rfl⟩ := list_eq_four (hlen r (List.mem_cons_self r rest))
    simp only [List.map_cons, List.flatten_cons, List.foldl_append]
    rw [foldl_row a b c d R, ih (fun x hx => hlen x (List.mem_cons_of_mem _ hx))]
    simp

/-! ## Universal-newline translation of the written file -/

theorem univNewlines_cons_noCR {c : Char} (hc : c ≠ '\r') (l : List Char) :
    univNewlines (c :: l) = c :: univNewlines l := by
  cases l with
  | nil => simp [univNewlines, hc]
  | cons d rest => simp [univNewlines, hc]

theorem univNewlines_append_noCR {a : List Char} (ha : '\r' ∉ a) (b : List Char) :
    univNewlines (a ++ b) = a ++ univNewlines b := by
  induction a with
  | nil => rfl
  | cons c rest ih =>
    rw [List.cons_append,
      univNewlines_cons_noCR (fun hc => ha (hc ▸ List.mem_cons_self c rest)) (rest ++ b),
      ih (fun hm => ha (List.mem_cons_of_mem c hm))]
    rfl

theorem univNewlines_crlf (b : List Char) :
    univNewlines ('\r' :: '\n' :: b) = '\n' :: univNewlines b := by
  simp [univNewlines]

theorem mem_csvEscapeField {c : Char} {f : List Char}
    (hc : c ∈ csvEscapeField f) : c ∈ f ∨ c = '"' := by
  rw [csvEscapeField] at hc
  by_cases hq : csvQuoteNeeded f
  · rw [if_pos hq] at hc
    rcases List.mem_cons.mp hc with rfl | hc'
    · exact Or.inr rfl
    · rcases List.mem_append.mp hc' with h | h
      · rcases List.mem_flatten.mp h with ⟨l, hl, hcl⟩
        rcases List.mem_map.mp hl with ⟨d, hd, rfl⟩
        by_cases hdq : d = '"'
        · rw [if_pos hdq] at hcl
          rcases List.mem_cons.mp hcl with rfl | hcl'
          · exact Or.inr rfl
          · rcases List.mem_singleton.mp hcl' with rfl
            exact Or.inr rfl
        · rw [if_neg hdq] at hcl
          rcases List.mem_singleton.mp hcl with rfl
          exact Or.inl hd
      · rcases List.mem_singleton.mp h with rfl
        exact Or.inr rfl
  · rw [if_neg hq] at hc
    exact Or.inl hc

theorem mem_intersperse {α : Type} {sep x : α} :
    ∀ {xs : List α}, x ∈ List.intersperse sep xs → x = sep ∨ x ∈ xs := by
  intro xs
  induction xs with
  | nil => intro h; simp [List.intersperse] at h
  | cons a tl ih =>
    cases tl with
    | nil =>
      intro h
      exact Or.inr h
    | cons b tl2 =>
      intro h
      rw [List.intersperse_cons_cons] at h
      rcases List.mem_cons.mp h with rfl | h'
      · exact Or.inr (List.mem_cons_self _ _)
      · rcases List.mem_cons.mp h' with rfl | h''
        · exact Or.inl rfl
        · rcases ih h'' with h3 | h3
          · exact Or.inl h3
          · exact Or.inr (List.mem_cons_of_mem _ h3)

theorem rowLine_no_cr {fields : List (List Char)}
    (h : ∀ f ∈ fields, '\r' ∉ f) :
    '\r' ∉ List.intercalate [','] (fields.map csvEscapeField) := by
  intro hc
  rw [List.intercalate] at hc
  rcases List.mem_flatten.mp hc with ⟨l, hl, hcl⟩
  rcases mem_intersperse hl with h1 | h2
  · subst h1
    exact absurd (List.mem_singleton.mp hcl) (by decide)
  · rcases List.mem_map.mp h2 with ⟨f, hf, rfl⟩
    rcases mem_csvEscapeField hcl with hin | heq
    · exact h f hf hin
    · exact absurd heq (by decide)

theorem save_to_csv_rows (configs : List VLANConfig) :
    save_to_csv configs = ((csvHeader :: configs.map configRow).map csvRowText).flatten := by
  simp only [List.map_cons, List.flatten_cons, List.map_map]
  rfl

theorem univNewlines_csv_file (rws : List (List (List Char)))
    (h : ∀ r ∈ rws, ∀ f ∈ r, '\r' ∉ f) :
    univNewlines ((rws.map csvRowText).flatten) = (rws.map rowLineLF).flatten := by
  induction rws with
  | nil => rfl
  | cons r rest ih
  =>
    simp only [List.map_cons, List.flatten_cons]
    have hb := rowLine_no_cr (h r (List.mem_cons_self r rest))
    have hsh : csvRowText r ++ (rest.map csvRowText).flatten
        = List.intercalate [','] (r.map csvEscapeField)
          ++ ('\r' :: '\n' :: (rest.map csvRowText).flatten) := by
      rw [csvRowText]
      simp [List.append_assoc]
    rw [hsh, univNewlines_append_noCR hb, univNewlines_crlf,
      ih (fun x hx => h x (List.mem_cons_of_mem r hx))]
    rw [rowLineLF]
    simp [List.append_assoc]

theorem csvScan_file (rws : List (List (List Char)))
    (hlen : ∀ r ∈ rws, r.length = 4) :
    csvScan ((rws.map rowLineLF).flatten) = rws := by
  rw [csvScan]
  have h0 : csvInit = (⟨[], [], [], .startRow⟩ : CsvState) := rfl
  rw [h0, foldl_rows rws hlen []]
  rfl

theorem parseRow_configRow (cfg : VLANConfig)
    (hip : pyStrip cfg.ip_network = cfg.ip_network)
    (hd : pyStrip cfg.description = cfg.description) :
    parseRow (configRow cfg) = some cfg := by
  have h0 : parseRow (configRow cfg)
      = (pyInt (pyStrip (intStr cfg.vlan_id))).bind (fun v =>
          (pyInt (pyStrip (intStr cfg.wan_assignment))).map (fun w =>
            { vlan_id := v, ip_network := pyStrip cfg.ip_network,
              description := pyStrip cfg.description, wan_assignment := w })) := rfl
  rw [h0, pyStrip_intStr, pyStrip_intStr, pyInt_intStr, pyInt_intStr, hip, hd]
  rfl

theorem parseRows_map (configs : List VLANConfig)
    (h : ∀ cfg ∈ configs,
      pyStrip cfg.ip_network = cfg.ip_network ∧
      pyStrip cfg.description = cfg.description) :
    parseRows (configs.map configRow) = .ok configs := by
  induction configs with
  | nil => rfl
  | cons cfg rest ih =>
    rw [List.map_cons]
    have hp := parseRow_configRow cfg (h cfg (List.mem_cons_self cfg rest)).1
      (h cfg (List.mem_cons_self cfg rest)).2
    simp only [parseRows, hp]
    rw [ih (fun c hc => h c (List.mem_cons_of_mem cfg hc))]
    rfl

/-- C6 (amended) — writing records with `save_to_csv` and reading them back
with `load_from_csv` yields exactly the same vlan_id, network_base,
description and wan_assignment values, in order, for every record list
whose string fields survive the reader's `.strip()` (no leading or
trailing whitespace) and contain no carriage return (which the
universal-newline file read would rewrite).  Fields may freely contain
commas, quotes and line feeds: the writer quotes them and the reader
undoes the quoting. -/
theorem save_load_round_trip (configs : List VLANConfig)
    (h : ∀ cfg ∈ configs,
      (pyStrip cfg.ip_network = cfg.ip_network ∧ '\r' ∉ cfg.ip_network) ∧
      (pyStrip cfg.description = cfg.description ∧ '\r' ∉ cfg.description)) :
    load_from_csv (save_to_csv configs) = .ok configs := by
  have hrows : ∀ r ∈ csvHeader :: configs.map configRow, ∀ f ∈ r, '\r' ∉ f := by
    intro r hr
    rcases List.mem_cons.mp hr with rfl | hr'
    · intro f hf
      fin_cases hf <;> decide
    · rcases List.mem_map.mp hr' with ⟨cfg, hcfg, rfl⟩
      intro f hf
      simp only [configRow, List.mem_cons, List.not_mem_nil, or_false] at hf
      rcases hf with rfl | rfl | rfl | rfl
      · exact intStr_no_cr cfg.vlan_id
      · exact (h cfg hcfg).1.2
      · exact (h cfg hcfg).2.2
      · exact intStr_no_cr cfg.wan_assignment
  have hlen : ∀ r ∈ csvHeader :: configs.map configRow, r.length = 4 := by
    intro r hr
    rcases List.mem_cons.mp hr with rfl | hr'
    · rfl
    · rcases List.mem_map.mp hr' with ⟨cfg, _, rfl⟩
      rfl
  have hscan : csvScan (univNewlines (save_to_csv configs))
      = csvHeader :: configs.map configRow := by
    rw [save_to_csv_rows, univNewlines_csv_file _ hrows, csvScan_file _ hlen]
  have hload : load_from_csv (save_to_csv configs)
      = parseRows (configs.map configRow) := by
    rw [load_from_csv, hscan]
  rw [hload]
  exact parseRows_map configs (fun cfg hc => ⟨(h cfg hc).1.1, (h cfg hc).2.1⟩)

/-- Five concrete records for the round-trip witness, matching the
scenario of the spec (`count=5`). -/
def fiveRecords : List VLANConfig :=
  [{ vlan_id := 10, ip_network := "10.0.0.x".data, description := "Sales10".data, wan_assignment := 1 },
   { vlan_id := 11, ip_network := "10.0.1.x".data, description := "IT11".data, wan_assignment := 2 },
   { vlan_id := 12, ip_network := "172.16.2.x".data, description := "HR12".data, wan_assignment := 3 },
   { vlan_id := 13, ip_network := "192.168.3.x".data, description := "Lab13".data, wan_assignment := 1 },
   { vlan_id := 14, ip_network := "10.1.4.x".data, description := "Guest14".data, wan_assignment := 2 }]

/-- C6 witness — the round-trip theorem at the concrete five-record
list. -/
theorem save_load_round_trip_witness :
    load_from_csv (save_to_csv fiveRecords) = .ok fiveRecords :=
  save_load_round_trip fiveRecords (by decide)
